import Mathlib

/-
  Verification of the external-endpoint resolution core of a
  go-systemd integration library: the socket-activation listener
  resolver (package `activation`) and the systemd-resolved DNS
  adapter (package `resolved`).

  Strings are modelled as lists of characters (`GoStr`).  Go's
  standard-library helpers used by the code under scrutiny
  (`net.SplitHostPort`, `strconv.Atoi`, `strconv.Itoa`,
  `strings.Split`, `strings.HasSuffix`) are embedded faithfully from
  their sources.  External services (the OS file table, the D-Bus
  connection to systemd-resolved, the `miekg/dns` wire unpacker) are
  modelled as explicit oracle parameters: the functions under
  verification only branch on their results.
-/

abbrev GoStr := List Char

namespace gostd

/-- Index of the first occurrence of `c` in `s` (Go `byteIndex`). -/
def indexOfChar (s : GoStr) (c : Char) : Option Nat :=
  s.findIdx? (· = c)

/-- Index of the last occurrence of `c` in `s` (Go `last` from package net). -/
def lastIndexOfChar (s : GoStr) (c : Char) : Option Nat :=
  (s.reverse.findIdx? (· = c)).map (fun j => s.length - 1 - j)

/-- Whether `c` occurs in `s`. -/
def containsChar (s : GoStr) (c : Char) : Bool :=
  (s.findIdx? (· = c)).isSome

/--
`net.SplitHostPort` from the Go standard library: splits a
`host:port` or `[host]:port` string into host and port, returning
`none` on any address-syntax error (missing port, too many colons,
stray or missing brackets).
-/
def splitHostPort (hostport : GoStr) : Option (GoStr × GoStr) :=
  match lastIndexOfChar hostport ':' with
  | none => none
  | some i =>
    match hostport with
    | [] => none
    | c0 :: _ =>
      if c0 = '[' then
        match indexOfChar hostport ']' with
        | none => none
        | some e =>
          if e + 1 = hostport.length then
            none
          else if e + 1 = i then
            let host := (hostport.drop 1).take (e - 1)
            if containsChar (hostport.drop 1) '[' then none
            else if containsChar (hostport.drop (e + 1)) ']' then none
            else some (host, hostport.drop (i + 1))
          else
            none
      else
        let host := hostport.take i
        if containsChar host ':' then none
        else if containsChar hostport '[' then none
        else if containsChar hostport ']' then none
        else some (host, hostport.drop (i + 1))

/-- Decimal digit run to a natural number; `none` if empty or non-digit. -/
def decDigits? (l : GoStr) : Option Nat :=
  if l = [] then none
  else l.foldlM
    (fun acc c =>
      if '0' ≤ c ∧ c ≤ '9' then some (acc * 10 + (c.toNat - '0'.toNat)) else none)
    0

/--
`strconv.Atoi` from the Go standard library on a 64-bit platform:
an optional sign followed by at least one decimal digit, with the
value required to fit a signed 64-bit integer (out-of-range input is
an error).
-/
def goAtoi (s : GoStr) : Option Int :=
  let signed : Bool × GoStr :=
    match s with
    | '-' :: r => (true, r)
    | '+' :: r => (false, r)
    | _ => (false, s)
  match decDigits? signed.2 with
  | none => none
  | some n =>
    if signed.1 then
      if n ≤ 2 ^ 63 then some (-(n : Int)) else none
    else
      if n ≤ 2 ^ 63 - 1 then some (n : Int) else none

/-- `strconv.Itoa` (decimal formatting of an integer). -/
def goItoa (i : Int) : GoStr :=
  if i < 0 then '-' :: Nat.toDigits 10 i.natAbs else Nat.toDigits 10 i.toNat

/-- `strings.Split(s, ":")`: split on each colon; the empty string
splits to one empty field. -/
def splitOnColon (s : GoStr) : List GoStr :=
  s.splitOn ':'

/-- `strings.HasSuffix(s, suffix)`. -/
def goHasSuffix (s suffix : GoStr) : Bool :=
  decide (suffix <:+ s)

end gostd

namespace activation

open gostd

/-- A `net.Listener` as far as package `activation` observes it:
only its bound address string (`l.Addr().String()`). -/
structure NetListener where
  addrStr : GoStr
deriving DecidableEq, Repr

/-- Errors produced by `Listen`. -/
inductive ListenErr
  /-- "failed to parse ... addr": the argument failed `SplitHostPort`. -/
  | parseAddr (addr : GoStr)
  /-- "failed to parse ... addr": a listener's own address failed `SplitHostPort`. -/
  | parseListener (addr : GoStr)
  /-- "... addr not found". -/
  | notFound (addr : GoStr)
deriving DecidableEq, Repr

/-- The `for _, l := range listeners` loop of `Listen`: split each
listener's address, fail on a split error, return the first listener
whose port string equals `port`. -/
def listenLoop (port : GoStr) : List NetListener → Except ListenErr NetListener
  | [] => .error (.notFound port)
  | l :: rest =>
    match splitHostPort l.addrStr with
    | none => .error (.parseListener l.addrStr)
    | some hp => if port = hp.2 then .ok l else listenLoop port rest

/-- `Listen(addr)`: split the argument into host and port, then scan
the package-level listener table for the first port match. -/
def Listen (table : List NetListener) (addr : GoStr) : Except ListenErr NetListener :=
  match splitHostPort addr with
  | none => .error (.parseAddr addr)
  | some hp =>
    match listenLoop hp.2 table with
    | .ok l => .ok l
    | .error (.notFound _) => .error (.notFound addr)
    | .error e => .error e

/-- The package-level `listeners` variable after a call to `Listen`:
the body of `Listen` contains no assignment to it, so the state is
returned unchanged. -/
def listenersAfterListen (table : List NetListener) (_addr : GoStr) : List NetListener :=
  table

/-- The process environment: an association list of variable/value pairs. -/
abbrev Env := List (GoStr × GoStr)

/-- `os.LookupEnv`. -/
def lookupEnv (e : Env) (k : GoStr) : Option GoStr :=
  (e.find? (fun p => p.1 = k)).map (·.2)

/-- `os.Getenv`: the empty string when the variable is unset. -/
def getenv (e : Env) (k : GoStr) : GoStr :=
  (lookupEnv e k).getD []

/-- `os.Unsetenv` (removal never fails for a well-formed name). -/
def unsetenv (e : Env) (k : GoStr) : Env :=
  e.filter (fun p => ¬ p.1 = k)

def LISTEN_PID : GoStr := "LISTEN_PID".toList
def LISTEN_FDS : GoStr := "LISTEN_FDS".toList
def LISTEN_FDNAMES : GoStr := "LISTEN_FDNAMES".toList

/-- Errors (and the runtime panic) that can come out of initialization. -/
inductive ActErr
  /-- `checkEnv`: "LISTEN_PID not set" / "LISTEN_FDS not set". -/
  | notSet (k : GoStr)
  /-- "failed to parse ... as int". -/
  | atoiFail (k : GoStr)
  /-- "bad pid (LISTEN_PID=..., pid=...)". -/
  | badPid (listenPid pid : Int)
  /-- A Go runtime panic, e.g. `makeslice: cap out of range` from
  `make([]*os.File, 0, n)` with negative `n`. -/
  | panicked (msg : GoStr)
  /-- "failed to init new file listener". -/
  | fileListenerFail (fd : Int)
  /-- "failed to close ... file". -/
  | closeFail (fd : Int)
deriving DecidableEq, Repr

def makesliceMsg : GoStr := "makeslice: cap out of range".toList

/-- `checkEnv`: require `LISTEN_PID` and `LISTEN_FDS` to be present. -/
def checkEnv (e : Env) : Option ActErr :=
  if (lookupEnv e LISTEN_PID).isSome then
    if (lookupEnv e LISTEN_FDS).isSome then none
    else some (.notSet LISTEN_FDS)
  else some (.notSet LISTEN_PID)

/-- An `*os.File` as `getFiles` builds it: raw descriptor number and
symbolic name (`os.NewFile(uintptr(fd), name)`). -/
structure GoFile where
  fd : Int
  name : GoStr
deriving DecidableEq, Repr

def listenFdPrefix : GoStr := "LISTEN_FD_".toList

/-- Name chosen for descriptor `fd` inside the `getFiles` loop: the
`LISTEN_FDNAMES` entry at offset `fd - listenFdsStart` when the name
list exists, the offset is in range and the entry is non-empty;
otherwise the generated default `"LISTEN_FD_" + itoa(fd)`. -/
def fdName (names? : Option (List GoStr)) (fd : Int) : GoStr :=
  let dflt := listenFdPrefix ++ gostd.goItoa fd
  match names? with
  | none => dflt
  | some ns =>
    match ns.get? (fd - 3).toNat with
    | some nm => if nm.length > 0 then nm else dflt
    | none => dflt

/-- The `for fd := listenFdsStart; fd < listenFdsStart+listenFds; fd++`
loop of `getFiles`: one `os.NewFile(uintptr(fd), name)` per descriptor
in `[3, 3+n)`. -/
def mkFiles (names? : Option (List GoStr)) (n : Nat) : List GoFile :=
  (List.range n).map (fun (i : Nat) => GoFile.mk (3 + (i : Int)) (fdName names? (3 + (i : Int))))

/--
`getFiles`: validate the activation environment, parse
`LISTEN_PID`/`LISTEN_FDS`, compare the advertised pid with the
current pid, read and unset the name list, unset `LISTEN_FDS` and
(again) `LISTEN_FDNAMES`, then build one `*os.File` per descriptor in
`[3, 3+LISTEN_FDS)`.  Returns the result together with the
environment left behind.  A negative parsed `LISTEN_FDS` reaches
`make([]*os.File, 0, listenFds)` and panics.
-/
def getFiles (env : Env) (pid : Int) : Except ActErr (List GoFile) × Env :=
  match checkEnv env with
  | some e => (.error e, env)
  | none =>
    match gostd.goAtoi (getenv env LISTEN_PID) with
    | none => (.error (.atoiFail LISTEN_PID), env)
    | some listenPid =>
      if listenPid ≠ pid then (.error (.badPid listenPid pid), env)
      else
        match gostd.goAtoi (getenv env LISTEN_FDS) with
        | none => (.error (.atoiFail LISTEN_FDS), env)
        | some listenFds =>
          let step1 : Option (List GoStr) × Env :=
            if (lookupEnv env LISTEN_FDS).isSome then
              (some (gostd.splitOnColon (getenv env LISTEN_FDNAMES)),
               unsetenv env LISTEN_FDNAMES)
            else (none, env)
          let env2 := unsetenv step1.2 LISTEN_FDS
          let env3 := unsetenv env2 LISTEN_FDNAMES
          if listenFds < 0 then (.error (.panicked makesliceMsg), env3)
          else (.ok (mkFiles step1.1 listenFds.toNat), env3)

/-- How the OS behaves on the inherited descriptors: whether
`net.FileListener` succeeds on a descriptor, the address string of
the listener it yields, and whether `Close` succeeds. -/
structure FdOps where
  wrapOk : Int → Bool
  wrapAddr : Int → GoStr
  closeOk : Int → Bool

/-- Observable file-handle events of `activationListeners`. -/
inductive FdEvent
  | wrap (fd : Int)
  | close (fd : Int)
deriving DecidableEq, Repr

/-- The loop of `activationListeners`: wrap each file with
`net.FileListener`, then close the raw handle, recording the events
in order and aborting on the first failure. -/
def wrapFiles (ops : FdOps) : List GoFile → Except ActErr (List NetListener) × List FdEvent
  | [] => (.ok [], [])
  | f :: rest =>
    if ops.wrapOk f.fd then
      if ops.closeOk f.fd then
        match wrapFiles ops rest with
        | (.ok ls, evs) =>
          (.ok (NetListener.mk (ops.wrapAddr f.fd) :: ls), .wrap f.fd :: .close f.fd :: evs)
        | (.error e, evs) => (.error e, .wrap f.fd :: .close f.fd :: evs)
      else (.error (.closeFail f.fd), [.wrap f.fd])
    else (.error (.fileListenerFail f.fd), [])

/-- Result of one run of `activationListeners`: the value returned,
the environment left behind, and the file-handle event trace. -/
structure ActResult where
  res : Except ActErr (List NetListener)
  env : Env
  trace : List FdEvent

/-- `activationListeners`: `getFiles` then the wrap-and-close loop. -/
def activationListeners (env : Env) (pid : Int) (ops : FdOps) : ActResult :=
  match getFiles env pid with
  | (.error e, env') => ⟨.error e, env', []⟩
  | (.ok files, env') =>
    let w := wrapFiles ops files
    ⟨w.1, env', w.2⟩

/-- The package `init` function: on any error from
`activationListeners` the package-level table is left `nil` (the
function returns `nil` on all of its error paths) and only a warning
is logged. -/
def initListeners (env : Env) (pid : Int) (ops : FdOps) : List NetListener :=
  match (activationListeners env pid ops).res with
  | .ok ls => ls
  | .error _ => []

end activation

namespace activation

open gostd

lemma listenLoop_eq (port : GoStr) (table : List NetListener)
    (hwf : ∀ l ∈ table, (splitHostPort l.addrStr).isSome) :
    listenLoop port table =
      (match table.find?
          (fun l => decide ((splitHostPort l.addrStr).map Prod.snd = some port)) with
       | some l => Except.ok l
       | none => Except.error (.notFound port)) := by
  induction table with
  | nil => rfl
  | cons l rest ih =>
    obtain ⟨hp, hhp⟩ :=
      Option.isSome_iff_exists.mp (hwf l (List.mem_cons_self l rest))
    have hrest : ∀ l' ∈ rest, (splitHostPort l'.addrStr).isSome :=
      fun l' hl' => hwf l' (List.mem_cons_of_mem l hl')
    by_cases hport : port = hp.2
    · simp [listenLoop, hhp, List.find?, hport]
    · simp only [listenLoop, hhp, List.find?]
      have hd : decide (hp.2 = port) = false := by
        simp [Ne.symm hport]
      simp [hport, hd, ih hrest]

lemma wrapFiles_allOk (ops : FdOps)
    (hw : ∀ fd : Int, ops.wrapOk fd = true) (hc : ∀ fd : Int, ops.closeOk fd = true)
    (files : List GoFile) :
    wrapFiles ops files =
      (.ok (files.map (fun f => NetListener.mk (ops.wrapAddr f.fd))),
       files.flatMap (fun f => [.wrap f.fd, .close f.fd])) := by
  induction files with
  | nil => rfl
  | cons f rest ih => simp [wrapFiles, hw, hc, ih]

lemma map_bind_eq {α β γ : Type} (g : α → β) (f : β → List γ) (l : List α) :
    (l.map g).flatMap f = l.flatMap (fun x => f (g x)) := by
  induction l with
  | nil => rfl
  | cons a rest ih => simp [ih]

lemma getFiles_err (env : Env) (pid : Int)
    (h : lookupEnv env LISTEN_PID = none ∨
         lookupEnv env LISTEN_FDS = none ∨
         goAtoi (getenv env LISTEN_PID) = none ∨
         goAtoi (getenv env LISTEN_FDS) = none ∨
         (∃ lp, goAtoi (getenv env LISTEN_PID) = some lp ∧ lp ≠ pid)) :
    ∃ e, (getFiles env pid).1 = .error e ∧ ∀ m, e ≠ .panicked m := by
  unfold getFiles
  cases hc : checkEnv env with
  | some e =>
    refine ⟨e, by simp, ?_⟩
    unfold checkEnv at hc
    split_ifs at hc
    all_goals first
      | (cases hc; intro m hx; cases hx)
      | cases hc
  | none =>
    have hpidSome : (lookupEnv env LISTEN_PID).isSome := by
      unfold checkEnv at hc
      split_ifs at hc with h1 h2
      all_goals first | assumption | cases hc
    have hfdsSome : (lookupEnv env LISTEN_FDS).isSome := by
      unfold checkEnv at hc
      split_ifs at hc with h1 h2
      all_goals first | assumption | cases hc
    cases hap : goAtoi (getenv env LISTEN_PID) with
    | none => exact ⟨.atoiFail LISTEN_PID, by simp [hap], fun m hx => by cases hx⟩
    | some lp =>
      by_cases hlp : lp = pid
      · cases haf : goAtoi (getenv env LISTEN_FDS) with
        | none =>
          refine ⟨.atoiFail LISTEN_FDS, ?_, fun m hx => by cases hx⟩
          simp [hap, haf, hlp]
        | some n =>
          exfalso
          rcases h with h | h | h | h | ⟨lp', hlp', hne⟩
          · rw [h] at hpidSome; cases hpidSome
          · rw [h] at hfdsSome; cases hfdsSome
          · rw [h] at hap; cases hap
          · rw [h] at haf; cases haf
          · rw [hap] at hlp'
            cases hlp'
            exact hne hlp
      · refine ⟨.badPid lp pid, ?_, fun m hx => by cases hx⟩
        simp [hap, hlp]

lemma listen_nil_err (addr : GoStr) :
    Listen [] addr = .error (.parseAddr addr) ∨
    Listen [] addr = .error (.notFound addr) := by
  unfold Listen
  cases hs : splitHostPort addr with
  | none => exact Or.inl rfl
  | some hp => exact Or.inr rfl

end activation

/--
C1: for every address string `addr` whose port component parses via
host:port splitting (and a listener table whose entries' bound
addresses themselves split, as the construction guarantees),
`Listen addr` returns the first listener in the table whose bound
address has an equal port string, a not-found error when no
listener's port matches, and the listener table is unchanged.
-/
theorem c1_listen_first_port_match (table : List activation.NetListener)
    (addr host port : GoStr)
    (hsplit : gostd.splitHostPort addr = some (host, port))
    (hwf : ∀ l ∈ table, (gostd.splitHostPort l.addrStr).isSome) :
    activation.Listen table addr =
      (match table.find?
          (fun l => decide ((gostd.splitHostPort l.addrStr).map Prod.snd = some port)) with
       | some l => Except.ok l
       | none => Except.error (.notFound addr)) ∧
    activation.listenersAfterListen table addr = table := by
  refine ⟨?_, rfl⟩
  unfold activation.Listen
  rw [hsplit]
  simp only
  rw [activation.listenLoop_eq port table hwf]
  cases table.find?
      (fun l => decide ((gostd.splitHostPort l.addrStr).map Prod.snd = some port)) with
  | none => rfl
  | some l => rfl

def c1Table : List activation.NetListener :=
  [⟨"1.2.3.4:80".toList⟩, ⟨"5.6.7.8:8080".toList⟩, ⟨"9.9.9.9:8080".toList⟩]

/-- Witness for C1 at a concrete three-entry table: the first of the
two port-8080 listeners is returned and the table is unchanged. -/
theorem c1_witness :
    activation.Listen c1Table "x:8080".toList =
      (match c1Table.find?
          (fun l => decide ((gostd.splitHostPort l.addrStr).map Prod.snd =
            some "8080".toList)) with
       | some l => Except.ok l
       | none => Except.error (.notFound "x:8080".toList)) ∧
    activation.listenersAfterListen c1Table "x:8080".toList = c1Table :=
  c1_listen_first_port_match c1Table "x:8080".toList "x".toList "8080".toList
    (by decide) (by decide)

/--
C2 (amended): for every environment advertising the current process
id and a *non-negative* descriptor count `n` (both parsing as
integers), and descriptors on which wrapping and closing succeed,
initialization builds a listener table with exactly `n` entries, one
wrapped listener per raw descriptor in the contiguous range
`[3, 3+n)`, and each raw descriptor's file handle is closed
immediately after it is wrapped (the event trace alternates
wrap/close per descriptor, in descriptor order).  The claim as
frozen also covers negative parsed counts, where the code instead
panics (see the counterexample).
-/
theorem c2_table_built (env : activation.Env) (pid : Int) (ops : activation.FdOps)
    (ps fs : GoStr) (n : Int)
    (hps : activation.lookupEnv env activation.LISTEN_PID = some ps)
    (hpid : gostd.goAtoi ps = some pid)
    (hfs : activation.lookupEnv env activation.LISTEN_FDS = some fs)
    (hn : gostd.goAtoi fs = some n) (hn0 : 0 ≤ n)
    (hw : ∀ fd : Int, ops.wrapOk fd = true)
    (hc : ∀ fd : Int, ops.closeOk fd = true) :
    ∃ ls, (activation.activationListeners env pid ops).res = .ok ls ∧
      ls.length = n.toNat ∧
      (∀ i : Nat, i < n.toNat →
        ls[i]? = some ⟨ops.wrapAddr (3 + (i : Int))⟩) ∧
      (activation.activationListeners env pid ops).trace =
        (List.range n.toNat).flatMap
          (fun (i : Nat) => [.wrap (3 + (i : Int)), .close (3 + (i : Int))]) := by
  have hge : activation.getenv env activation.LISTEN_PID = ps := by
    simp [activation.getenv, hps]
  have hgf : activation.getenv env activation.LISTEN_FDS = fs := by
    simp [activation.getenv, hfs]
  have hchk : activation.checkEnv env = none := by
    simp [activation.checkEnv, hps, hfs]
  have hnneg : ¬ (n < 0) := not_lt.mpr hn0
  set names? : Option (List GoStr) :=
    some (gostd.splitOnColon (activation.getenv env activation.LISTEN_FDNAMES))
    with hnames
  have hfiles : activation.getFiles env pid =
      (.ok (activation.mkFiles names? n.toNat),
       activation.unsetenv
         (activation.unsetenv (activation.unsetenv env activation.LISTEN_FDNAMES)
           activation.LISTEN_FDS)
         activation.LISTEN_FDNAMES) := by
    simp [activation.getFiles, hchk, hge, hgf, hpid, hn, hnneg, hfs, hnames]
  have hres : (activation.activationListeners env pid ops).res =
      .ok ((activation.mkFiles names? n.toNat).map
        (fun f => ⟨ops.wrapAddr f.fd⟩)) := by
    unfold activation.activationListeners
    rw [hfiles]
    dsimp only
    rw [activation.wrapFiles_allOk ops hw hc]
  have htr : (activation.activationListeners env pid ops).trace =
      (activation.mkFiles names? n.toNat).flatMap
        (fun f => [.wrap f.fd, .close f.fd]) := by
    unfold activation.activationListeners
    rw [hfiles]
    dsimp only
    rw [activation.wrapFiles_allOk ops hw hc]
  refine ⟨(activation.mkFiles names? n.toNat).map (fun f => ⟨ops.wrapAddr f.fd⟩),
    hres, ?_, ?_, ?_⟩
  · rw [List.length_map, activation.mkFiles, List.length_map, List.length_range]
  · intro i hi
    rw [List.getElem?_map, activation.mkFiles, List.getElem?_map,
      List.getElem?_range hi]
    rfl
  · rw [htr]
    unfold activation.mkFiles
    rw [activation.map_bind_eq]

def envNegC2 : activation.Env :=
  [(activation.LISTEN_PID, "7".toList), (activation.LISTEN_FDS, "-1".toList)]

def opsAll : activation.FdOps :=
  ⟨fun _ => true, fun fd => "0.0.0.0:".toList ++ gostd.goItoa fd, fun _ => true⟩

/--
Counterexample to C2 as frozen: in an environment whose advertised
process id matches (7) and whose descriptor count parses as the
integer -1, initialization does not build a listener table at all —
`make([]*os.File, 0, listenFds)` panics with a negative capacity —
so "a listener table with exactly N entries" is false at this input.
-/
theorem c2_counterexample :
    gostd.goAtoi "-1".toList = some (-1) ∧
    (activation.activationListeners envNegC2 7 opsAll).res =
      .error (.panicked activation.makesliceMsg) := by
  constructor
  · rfl
  · rfl

/-- Witness for the amended C2 at a concrete environment with two
advertised descriptors. -/
theorem c2_witness :
    ∃ ls,
      (activation.activationListeners
        [(activation.LISTEN_PID, "7".toList), (activation.LISTEN_FDS, "2".toList),
         (activation.LISTEN_FDNAMES, "a:b".toList)] 7 opsAll).res = .ok ls ∧
      ls.length = (2 : Int).toNat ∧
      (∀ i : Nat, i < (2 : Int).toNat →
        ls[i]? = some ⟨opsAll.wrapAddr (3 + (i : Int))⟩) ∧
      (activation.activationListeners
        [(activation.LISTEN_PID, "7".toList), (activation.LISTEN_FDS, "2".toList),
         (activation.LISTEN_FDNAMES, "a:b".toList)] 7 opsAll).trace =
        (List.range (2 : Int).toNat).flatMap
          (fun (i : Nat) => [.wrap (3 + (i : Int)), .close (3 + (i : Int))]) :=
  c2_table_built _ 7 opsAll "7".toList "2".toList 2
    (by decide) (by decide) (by decide) (by decide) (by decide)
    (fun _ => rfl) (fun _ => rfl)

def envFullC3 : activation.Env :=
  [(activation.LISTEN_PID, "7".toList), (activation.LISTEN_FDS, "1".toList),
   (activation.LISTEN_FDNAMES, "sock".toList)]

def envNoPidC3 : activation.Env :=
  [(activation.LISTEN_FDS, "1".toList), (activation.LISTEN_FDNAMES, "sock".toList)]

/--
C3 is false of the code: after a fully successful initialization run
(matching pid 7, one descriptor) the `LISTEN_PID` variable is still
set — `getFiles` unsets `LISTEN_FDS` once and `LISTEN_FDNAMES` twice
but never `LISTEN_PID` (its two error messages even read "failed to
unset env LISTEN_PID", showing the intent) — and on the early
missing-variable path nothing at all is unset.
-/
theorem c3_listen_pid_never_unset :
    (activation.getFiles envFullC3 7).1 = .ok [⟨3, "sock".toList⟩] ∧
    activation.lookupEnv (activation.getFiles envFullC3 7).2 activation.LISTEN_PID =
      some "7".toList ∧
    activation.lookupEnv (activation.getFiles envFullC3 7).2 activation.LISTEN_FDS =
      none ∧
    activation.lookupEnv (activation.getFiles envFullC3 7).2 activation.LISTEN_FDNAMES =
      none ∧
    (activation.getFiles envNoPidC3 7).2 = envNoPidC3 ∧
    activation.lookupEnv (activation.getFiles envNoPidC3 7).2 activation.LISTEN_FDS =
      some "1".toList := by
  refine ⟨rfl, ?_, ?_, ?_, rfl, ?_⟩ <;> decide

/--
C4: whenever `LISTEN_PID` or `LISTEN_FDS` is absent, fails to parse
as an integer, or the advertised process id differs from the current
one, initialization returns an error (never the runtime panic), the
listener table is left empty, and every subsequent `Listen` call
returns a parse or not-found error rather than crashing.
-/
theorem c4_failure_disables (env : activation.Env) (pid : Int) (ops : activation.FdOps)
    (h : activation.lookupEnv env activation.LISTEN_PID = none ∨
         activation.lookupEnv env activation.LISTEN_FDS = none ∨
         gostd.goAtoi (activation.getenv env activation.LISTEN_PID) = none ∨
         gostd.goAtoi (activation.getenv env activation.LISTEN_FDS) = none ∨
         (∃ lp, gostd.goAtoi (activation.getenv env activation.LISTEN_PID) = some lp ∧
           lp ≠ pid)) :
    (∃ e, (activation.activationListeners env pid ops).res = .error e ∧
      ∀ m, e ≠ .panicked m) ∧
    activation.initListeners env pid ops = [] ∧
    (∀ addr,
      activation.Listen (activation.initListeners env pid ops) addr =
        .error (.parseAddr addr) ∨
      activation.Listen (activation.initListeners env pid ops) addr =
        .error (.notFound addr)) := by
  obtain ⟨e, he, hnp⟩ := activation.getFiles_err env pid h
  rcases hgf : activation.getFiles env pid with ⟨r, env'⟩
  rw [hgf] at he
  dsimp at he
  subst he
  have hact : (activation.activationListeners env pid ops).res = .error e := by
    unfold activation.activationListeners
    rw [hgf]
  have hinit : activation.initListeners env pid ops = [] := by
    unfold activation.initListeners
    rw [hact]
  refine ⟨⟨e, hact, hnp⟩, hinit, ?_⟩
  intro addr
  rw [hinit]
  exact activation.listen_nil_err addr

/-- Witness for C4 at the empty environment (both variables absent):
initialization fails without a panic, the table is empty, and
`Listen` on it errors for every address. -/
theorem c4_witness :
    (∃ e, (activation.activationListeners [] 1 opsAll).res = .error e ∧
      ∀ m, e ≠ .panicked m) ∧
    activation.initListeners [] 1 opsAll = [] ∧
    (∀ addr,
      activation.Listen (activation.initListeners [] 1 opsAll) addr =
        .error (.parseAddr addr) ∨
      activation.Listen (activation.initListeners [] 1 opsAll) addr =
        .error (.notFound addr)) :=
  c4_failure_disables [] 1 opsAll (Or.inl rfl)

namespace resolved

open gostd

/-- `isDomainName` loop state after consuming a prefix of the string:
the previous byte, whether a letter/underscore/hyphen was seen, and
the current label length; `none` once the function has returned
`false`. -/
def idnLoop : GoStr → Char → Bool → Nat → Option (Char × Bool × Nat)
  | [], last, nonNumeric, partlen => some (last, nonNumeric, partlen)
  | c :: rest, last, nonNumeric, partlen =>
    if ('a' ≤ c ∧ c ≤ 'z') ∨ ('A' ≤ c ∧ c ≤ 'Z') ∨ c = '_' then
      idnLoop rest c true (partlen + 1)
    else if '0' ≤ c ∧ c ≤ '9' then
      idnLoop rest c nonNumeric (partlen + 1)
    else if c = '-' then
      if last = '.' then none else idnLoop rest c true (partlen + 1)
    else if c = '.' then
      if last = '.' ∨ last = '-' then none
      else if partlen > 63 ∨ partlen = 0 then none
      else idnLoop rest c nonNumeric 0
    else none

/-- `isDomainName` from resolver.go (itself copied from the Go
standard library): checks RFC 1035 syntax with the practical
permissions Go grants (underscores allowed, trailing dot allowed,
purely numeric names rejected). -/
def isDomainName (s : GoStr) : Bool :=
  let l := s.length
  if l = 0 ∨ l > 254 ∨ (l = 254 ∧ s.getLast? ≠ some '.') then false
  else
    match idnLoop s '.' false 0 with
    | none => false
    | some st =>
      if st.1 = '-' ∨ st.2.2 > 63 then false else st.2.1

/-- `fullyQualified`: append a trailing dot unless one is present. -/
def fullyQualified (s : GoStr) : GoStr :=
  if goHasSuffix s ['.'] then s else s ++ ['.']

/-- A `net.IP` as the resolver observes it: whether `To4()` returns
nil (a true IPv6 address) and its `String()` rendering. -/
structure GoIP where
  to4IsNone : Bool
  str : GoStr
deriving DecidableEq, Repr

/-- One `(ifindex, hostname)` answer of the `ResolveAddress` D-Bus call. -/
structure NameRec where
  ifIndex : Int
  hostname : GoStr
deriving DecidableEq, Repr

/-- A `ResourceRecord` as returned by the `ResolveRecord` D-Bus call:
interface index, declared dns type and class, raw RFC 1035 wire
payload. -/
structure ResourceRecord where
  ifIndex : Int
  rtype : Nat
  rclass : Nat
  data : List Nat
deriving DecidableEq, Repr

/-- The typed payload of a decoded `dns.RR` (the dynamic Go type
produced by `miekg/dns`). -/
inductive RRBody
  | cname (target : GoStr)
  | mx (preference : Nat) (mx : GoStr)
  | ns (ns : GoStr)
  | srv (priority weight port : Nat) (target : GoStr)
  | txt (txt : List GoStr)
  | other
deriving DecidableEq, Repr

/-- A decoded `dns.RR`: the type code its header declares and its body. -/
structure DnsRR where
  rrtype : Nat
  body : RRBody
deriving DecidableEq, Repr

/-- `dns.UnpackRR` of `miekg/dns`, as an oracle: some wire payloads
decode to a resource record, the rest fail. -/
abbrev UnpackFn := List Nat → Option DnsRR

def TypeNS : Nat := 2
def TypeCNAME : Nat := 5
def TypeMX : Nat := 15
def TypeTXT : Nat := 16
def TypeSRV : Nat := 33

/-- Errors of the typed `ResourceRecord` decoders. -/
inductive DecodeErr
  /-- `dns.UnpackRR` failed on the wire payload. -/
  | unpack
  /-- "not an X record type": the header's declared type differs from
  the requested one. -/
  | wrongType (want : GoStr)
  /-- "dns.RR is not a *dns.X": the Go type assertion failed. -/
  | wrongGoType (want : GoStr)
deriving DecidableEq, Repr

/-- `ResourceRecord.Unpack`. -/
def ResourceRecord.unpackRR (u : UnpackFn) (r : ResourceRecord) : Except DecodeErr DnsRR :=
  match u r.data with
  | none => .error .unpack
  | some rr => .ok rr

def cnameStr : GoStr := "CNAME".toList
def mxStr : GoStr := "MX".toList
def nsStr : GoStr := "NS".toList
def srvStr : GoStr := "SRV".toList
def txtStr : GoStr := "TXT".toList

/-- `*dns.CNAME` payload. -/
structure DnsCNAME where
  target : GoStr
deriving DecidableEq, Repr

/-- `ResourceRecord.CNAME`: unpack, check the declared type, assert
the Go type. -/
def ResourceRecord.CNAME (u : UnpackFn) (r : ResourceRecord) : Except DecodeErr DnsCNAME :=
  match r.unpackRR u with
  | .error e => .error e
  | .ok rr =>
    if rr.rrtype ≠ TypeCNAME then .error (.wrongType cnameStr)
    else
      match rr.body with
      | .cname t => .ok ⟨t⟩
      | _ => .error (.wrongGoType cnameStr)

/-- `*dns.MX` payload. -/
structure DnsMX where
  preference : Nat
  mx : GoStr
deriving DecidableEq, Repr

/-- `ResourceRecord.MX`. -/
def ResourceRecord.MX (u : UnpackFn) (r : ResourceRecord) : Except DecodeErr DnsMX :=
  match r.unpackRR u with
  | .error e => .error e
  | .ok rr =>
    if rr.rrtype ≠ TypeMX then .error (.wrongType mxStr)
    else
      match rr.body with
      | .mx p m => .ok ⟨p, m⟩
      | _ => .error (.wrongGoType mxStr)

/-- `*dns.NS` payload. -/
structure DnsNS where
  ns : GoStr
deriving DecidableEq, Repr

/-- `ResourceRecord.NS`. -/
def ResourceRecord.NS (u : UnpackFn) (r : ResourceRecord) : Except DecodeErr DnsNS :=
  match r.unpackRR u with
  | .error e => .error e
  | .ok rr =>
    if rr.rrtype ≠ TypeNS then .error (.wrongType nsStr)
    else
      match rr.body with
      | .ns n => .ok ⟨n⟩
      | _ => .error (.wrongGoType nsStr)

/-- `*dns.SRV` payload. -/
structure DnsSRV where
  priority : Nat
  weight : Nat
  port : Nat
  target : GoStr
deriving DecidableEq, Repr

/-- `ResourceRecord.SRV`. -/
def ResourceRecord.SRV (u : UnpackFn) (r : ResourceRecord) : Except DecodeErr DnsSRV :=
  match r.unpackRR u with
  | .error e => .error e
  | .ok rr =>
    if rr.rrtype ≠ TypeSRV then .error (.wrongType srvStr)
    else
      match rr.body with
      | .srv p w pt t => .ok ⟨p, w, pt, t⟩
      | _ => .error (.wrongGoType srvStr)

/-- `*dns.TXT` payload. -/
structure DnsTXT where
  txt : List GoStr
deriving DecidableEq, Repr

/-- `ResourceRecord.TXT`. -/
def ResourceRecord.TXT (u : UnpackFn) (r : ResourceRecord) : Except DecodeErr DnsTXT :=
  match r.unpackRR u with
  | .error e => .error e
  | .ok rr =>
    if rr.rrtype ≠ TypeTXT then .error (.wrongType txtStr)
    else
      match rr.body with
      | .txt t => .ok ⟨t⟩
      | _ => .error (.wrongGoType txtStr)

end resolved

namespace resolved

open gostd

/-- A `*net.DNSError` as the resolver builds them. -/
structure GoDNSError where
  err : GoStr
  name : GoStr
  isNotFound : Bool
deriving DecidableEq, Repr

def noSuchHost : GoStr := "no such host".toList
def unrecognizedAddr : GoStr := "unrecognized address".toList

/-- `syscall.AF_INET` / `syscall.AF_INET6` on Linux. -/
def AF_INET : Int := 2
def AF_INET6 : Int := 10

/-- Errors a resolver lookup or dial can return. -/
inductive LookupErr
  /-- a `*net.DNSError` built locally. -/
  | dns (e : GoDNSError)
  /-- an error propagated verbatim from the D-Bus call. -/
  | remote (msg : GoStr)
  /-- a decode error from a typed `ResourceRecord` decoder. -/
  | decode (e : DecodeErr)
  /-- the `net.SplitHostPort` error returned by `DialContext`. -/
  | addrParse (addr : GoStr)
deriving DecidableEq, Repr

/-- The D-Bus round trips a lookup can issue. -/
inductive RemoteCall
  | resolveHostname (name : GoStr)
  | resolveAddress (family : Int) (ip : GoIP)
  | resolveRecord (name : GoStr) (rtype : Nat)
deriving DecidableEq, Repr

/-- The systemd-resolved service behind the D-Bus connection, as an
oracle: what each `Resolve*` method answers. -/
structure ResolveEnv where
  resolveHostname : GoStr → Except GoStr (List GoIP)
  resolveAddress : Int → GoIP → Except GoStr (List NameRec)
  resolveRecord : GoStr → Nat → Except GoStr (List ResourceRecord)

/-- `Resolver.LookupHost`: reject the empty host locally, otherwise
one `ResolveHostname` round trip whose addresses are rendered with
`String()`.  The second component is the list of remote calls issued. -/
def lookupHost (env : ResolveEnv) (host : GoStr) :
    Except LookupErr (List GoStr) × List RemoteCall :=
  if host = [] then (.error (.dns ⟨noSuchHost, host, true⟩), [])
  else
    match env.resolveHostname host with
    | .error e => (.error (.remote e), [.resolveHostname host])
    | .ok addrs => (.ok (addrs.map GoIP.str), [.resolveHostname host])

/-- `Resolver.LookupAddr`: parse the address (`net.ParseIP` supplied
as an oracle `pip`), pick the family from `To4`, one `ResolveAddress`
round trip, and fully qualify every returned hostname. -/
def lookupAddr (pip : GoStr → Option GoIP) (env : ResolveEnv) (addr : GoStr) :
    Except LookupErr (List GoStr) × List RemoteCall :=
  match pip addr with
  | none => (.error (.dns ⟨unrecognizedAddr, addr, false⟩), [])
  | some ip =>
    let family := if ip.to4IsNone then AF_INET6 else AF_INET
    match env.resolveAddress family ip with
    | .error e => (.error (.remote e), [.resolveAddress family ip])
    | .ok hostnames =>
      (.ok (hostnames.map (fun n => fullyQualified n.hostname)),
       [.resolveAddress family ip])

/-- `Resolver.LookupCNAME`: reject the empty host locally, one
`ResolveRecord` round trip for CNAME, decode and return the first
record's target; an empty record set is a not-found error. -/
def lookupCNAME (u : UnpackFn) (env : ResolveEnv) (host : GoStr) :
    Except LookupErr GoStr × List RemoteCall :=
  if host = [] then (.error (.dns ⟨noSuchHost, host, true⟩), [])
  else
    match env.resolveRecord host TypeCNAME with
    | .error e => (.error (.remote e), [.resolveRecord host TypeCNAME])
    | .ok records =>
      match records with
      | [] => (.error (.dns ⟨noSuchHost, host, true⟩), [.resolveRecord host TypeCNAME])
      | r :: _ =>
        match r.CNAME u with
        | .error e => (.error (.decode e), [.resolveRecord host TypeCNAME])
        | .ok c => (.ok c.target, [.resolveRecord host TypeCNAME])

/-- A `*net.MX`. -/
structure GoMX where
  host : GoStr
  pref : Nat
deriving DecidableEq, Repr

/-- The decoding loop of `LookupMX`: first decoder error aborts. -/
def decodeMXList (u : UnpackFn) : List ResourceRecord → Except DecodeErr (List GoMX)
  | [] => .ok []
  | r :: rest =>
    match r.MX u with
    | .error e => .error e
    | .ok mx => (decodeMXList u rest).map (fun t => ⟨mx.mx, mx.preference⟩ :: t)

/-- `Resolver.LookupMX`: reject syntactically invalid names locally,
one `ResolveRecord` round trip for MX, decode every record in the
delivered order (no sorting). -/
def lookupMX (u : UnpackFn) (env : ResolveEnv) (name : GoStr) :
    Except LookupErr (List GoMX) × List RemoteCall :=
  if ¬ isDomainName name then (.error (.dns ⟨noSuchHost, name, true⟩), [])
  else
    match env.resolveRecord name TypeMX with
    | .error e => (.error (.remote e), [.resolveRecord name TypeMX])
    | .ok records =>
      match decodeMXList u records with
      | .error e => (.error (.decode e), [.resolveRecord name TypeMX])
      | .ok mxs => (.ok mxs, [.resolveRecord name TypeMX])

/-- A `*net.NS`. -/
structure GoNS where
  host : GoStr
deriving DecidableEq, Repr

/-- The decoding loop of `LookupNS`. -/
def decodeNSList (u : UnpackFn) : List ResourceRecord → Except DecodeErr (List GoNS)
  | [] => .ok []
  | r :: rest =>
    match r.NS u with
    | .error e => .error e
    | .ok ns => (decodeNSList u rest).map (fun t => ⟨ns.ns⟩ :: t)

/-- `Resolver.LookupNS`. -/
def lookupNS (u : UnpackFn) (env : ResolveEnv) (name : GoStr) :
    Except LookupErr (List GoNS) × List RemoteCall :=
  if ¬ isDomainName name then (.error (.dns ⟨noSuchHost, name, true⟩), [])
  else
    match env.resolveRecord name TypeNS with
    | .error e => (.error (.remote e), [.resolveRecord name TypeNS])
    | .ok records =>
      match decodeNSList u records with
      | .error e => (.error (.decode e), [.resolveRecord name TypeNS])
      | .ok nss => (.ok nss, [.resolveRecord name TypeNS])

/-- The decoding loop of `LookupTXT`: each record's strings are
appended in order. -/
def decodeTXTList (u : UnpackFn) : List ResourceRecord → Except DecodeErr (List GoStr)
  | [] => .ok []
  | r :: rest =>
    match r.TXT u with
    | .error e => .error e
    | .ok t => (decodeTXTList u rest).map (fun ts => t.txt ++ ts)

/-- `Resolver.LookupTXT`. -/
def lookupTXT (u : UnpackFn) (env : ResolveEnv) (name : GoStr) :
    Except LookupErr (List GoStr) × List RemoteCall :=
  if ¬ isDomainName name then (.error (.dns ⟨noSuchHost, name, true⟩), [])
  else
    match env.resolveRecord name TypeTXT with
    | .error e => (.error (.remote e), [.resolveRecord name TypeTXT])
    | .ok records =>
      match decodeTXTList u records with
      | .error e => (.error (.decode e), [.resolveRecord name TypeTXT])
      | .ok txts => (.ok txts, [.resolveRecord name TypeTXT])

/-- The address-selection loop of `DialContext`: the `address`
variable initially holds the full unsplit input; each IPv4 answer
overwrites it with its rendering, and the first IPv6 answer (an
address whose `To4()` is nil) overwrites it bracketed and breaks. -/
def dialLoop : List GoIP → GoStr → GoStr
  | [], address => address
  | ip :: rest, address =>
    if ip.to4IsNone then ['['] ++ ip.str ++ [']']
    else dialLoop rest ip.str

/-- `Resolver.DialContext` up to the dialer: split the input, resolve
the host, run the selection loop, and return the address string
handed to `dialer.DialContext` (`address + ":" + port`), together
with the remote calls issued. -/
def dialAddress (env : ResolveEnv) (address : GoStr) :
    Except LookupErr GoStr × List RemoteCall :=
  match splitHostPort address with
  | none => (.error (.addrParse address), [])
  | some hp =>
    match env.resolveHostname hp.1 with
    | .error e => (.error (.remote e), [.resolveHostname hp.1])
    | .ok addrs =>
      (.ok (dialLoop addrs address ++ [':'] ++ hp.2), [.resolveHostname hp.1])

end resolved

def exCom : GoStr := "example.com".toList
def mxHostA : GoStr := "a.example.com.".toList
def mxHostB : GoStr := "b.example.com.".toList

/-- A concrete behaviour of `dns.UnpackRR`: payload `[1]` decodes to
an MX record of preference 20, payload `[2]` to one of preference 10. -/
def u0 : resolved.UnpackFn := fun d =>
  if d = [1] then some ⟨resolved.TypeMX, .mx 20 mxHostB⟩
  else if d = [2] then some ⟨resolved.TypeMX, .mx 10 mxHostA⟩
  else none

/-- A concrete resolved service delivering the two MX records above,
higher preference first, for `example.com`. -/
def env0 : resolved.ResolveEnv where
  resolveHostname := fun _ => .error "unreachable".toList
  resolveAddress := fun _ _ => .error "unreachable".toList
  resolveRecord := fun name t =>
    if name = exCom ∧ t = resolved.TypeMX then
      .ok [⟨0, resolved.TypeMX, 1, [1]⟩, ⟨0, resolved.TypeMX, 1, [2]⟩]
    else .error "unreachable".toList

/--
C5 is false of the code: `LookupMX` applies no sort, so when the
`ResolveRecord` call delivers MX records with preferences 20 then 10
the successful result has preferences `[20, 10]`, which is not
non-decreasing.  The repository's own `TestLookupMX` compares the
result element-wise against Go's `net.Resolver.LookupMX` — which
sorts ascending by preference — without sorting either side, so the
sorted order is the code's documented intent.
-/
theorem c5_mx_order_preserved_not_sorted :
    (resolved.lookupMX u0 env0 exCom).1 =
      .ok [⟨mxHostB, 20⟩, ⟨mxHostA, 10⟩] ∧
    ¬ List.Chain' (fun a b : resolved.GoMX => a.pref ≤ b.pref)
        [⟨mxHostB, 20⟩, ⟨mxHostA, 10⟩] := by
  constructor
  · rfl
  · intro hch
    rw [List.chain'_cons] at hch
    simp at hch

/--
C6: every typed decoder (CNAME, MX, NS, SRV, TXT) returns an error —
never a typed record — when the unpacked record's declared type
differs from the requested type, and a payload that fails to unpack
at all yields the distinct unpack error.
-/
theorem c6_decoders_reject_type_mismatch (u : resolved.UnpackFn)
    (r : resolved.ResourceRecord) :
    (u r.data = none →
      r.CNAME u = .error .unpack ∧ r.MX u = .error .unpack ∧
      r.NS u = .error .unpack ∧ r.SRV u = .error .unpack ∧
      r.TXT u = .error .unpack) ∧
    (∀ rr, u r.data = some rr →
      (rr.rrtype ≠ resolved.TypeCNAME →
        r.CNAME u = .error (.wrongType resolved.cnameStr)) ∧
      (rr.rrtype ≠ resolved.TypeMX →
        r.MX u = .error (.wrongType resolved.mxStr)) ∧
      (rr.rrtype ≠ resolved.TypeNS →
        r.NS u = .error (.wrongType resolved.nsStr)) ∧
      (rr.rrtype ≠ resolved.TypeSRV →
        r.SRV u = .error (.wrongType resolved.srvStr)) ∧
      (rr.rrtype ≠ resolved.TypeTXT →
        r.TXT u = .error (.wrongType resolved.txtStr))) ∧
    (∀ w, resolved.DecodeErr.unpack ≠ resolved.DecodeErr.wrongType w) := by
  refine ⟨?_, ?_, ?_⟩
  · intro hu
    refine ⟨?_, ?_, ?_, ?_, ?_⟩ <;>
      simp [resolved.ResourceRecord.CNAME, resolved.ResourceRecord.MX,
        resolved.ResourceRecord.NS, resolved.ResourceRecord.SRV,
        resolved.ResourceRecord.TXT, resolved.ResourceRecord.unpackRR, hu]
  · intro rr hu
    refine ⟨?_, ?_, ?_, ?_, ?_⟩ <;> intro ht <;>
      simp [resolved.ResourceRecord.CNAME, resolved.ResourceRecord.MX,
        resolved.ResourceRecord.NS, resolved.ResourceRecord.SRV,
        resolved.ResourceRecord.TXT, resolved.ResourceRecord.unpackRR, hu, ht]
  · intro w hw
    cases hw

/-- An unpacker that fails on every payload, and an arbitrary record. -/
def uNone : resolved.UnpackFn := fun _ => none

def rAny : resolved.ResourceRecord := ⟨0, resolved.TypeMX, 1, [9]⟩

/-- Witness for C6: on a payload that does not unpack, all five
decoders return the unpack error. -/
theorem c6_witness :
    rAny.CNAME uNone = .error .unpack ∧ rAny.MX uNone = .error .unpack ∧
    rAny.NS uNone = .error .unpack ∧ rAny.SRV uNone = .error .unpack ∧
    rAny.TXT uNone = .error .unpack :=
  (c6_decoders_reject_type_mismatch uNone rAny).1 rfl

/--
C7: the empty host is rejected by `LookupHost` and `LookupCNAME`
with a not-found DNS error carrying the (empty) queried name, and a
name failing DNS syntax is rejected by `LookupMX`/`LookupNS`/
`LookupTXT` with a not-found DNS error carrying the name — in every
case with an empty remote-call trace.
-/
theorem c7_invalid_input_no_remote_call (u : resolved.UnpackFn)
    (env : resolved.ResolveEnv) (name : GoStr)
    (h : resolved.isDomainName name = false) :
    resolved.lookupHost env [] =
      (.error (.dns ⟨resolved.noSuchHost, [], true⟩), []) ∧
    resolved.lookupCNAME u env [] =
      (.error (.dns ⟨resolved.noSuchHost, [], true⟩), []) ∧
    resolved.lookupMX u env name =
      (.error (.dns ⟨resolved.noSuchHost, name, true⟩), []) ∧
    resolved.lookupNS u env name =
      (.error (.dns ⟨resolved.noSuchHost, name, true⟩), []) ∧
    resolved.lookupTXT u env name =
      (.error (.dns ⟨resolved.noSuchHost, name, true⟩), []) := by
  refine ⟨rfl, rfl, ?_, ?_, ?_⟩ <;>
    simp [resolved.lookupMX, resolved.lookupNS, resolved.lookupTXT, h]

/-- Witness for C7 at the syntactically invalid name `"-"`. -/
theorem c7_witness :
    resolved.lookupHost env0 [] =
      (.error (.dns ⟨resolved.noSuchHost, [], true⟩), []) ∧
    resolved.lookupCNAME u0 env0 [] =
      (.error (.dns ⟨resolved.noSuchHost, [], true⟩), []) ∧
    resolved.lookupMX u0 env0 "-".toList =
      (.error (.dns ⟨resolved.noSuchHost, "-".toList, true⟩), []) ∧
    resolved.lookupNS u0 env0 "-".toList =
      (.error (.dns ⟨resolved.noSuchHost, "-".toList, true⟩), []) ∧
    resolved.lookupTXT u0 env0 "-".toList =
      (.error (.dns ⟨resolved.noSuchHost, "-".toList, true⟩), []) :=
  c7_invalid_input_no_remote_call u0 env0 "-".toList (by decide)

namespace resolved

lemma dialLoop_first_v6 (pre : List GoIP) (ip6 : GoIP) (rest : List GoIP)
    (hpre : ∀ ip ∈ pre, ip.to4IsNone = false) (h6 : ip6.to4IsNone = true)
    (init : GoStr) :
    dialLoop (pre ++ ip6 :: rest) init = ['['] ++ ip6.str ++ [']'] := by
  induction pre generalizing init with
  | nil => simp [dialLoop, h6]
  | cons p ps ih =>
    have hp := hpre p (List.mem_cons_self p ps)
    have hps : ∀ ip ∈ ps, ip.to4IsNone = false :=
      fun ip hip => hpre ip (List.mem_cons_of_mem p hip)
    simp [dialLoop, hp, ih hps]

lemma dialLoop_all_v4 (l : List GoIP) (init : GoStr)
    (hall : ∀ ip ∈ l, ip.to4IsNone = false) (hne : l ≠ []) :
    ∃ ip ∈ l, dialLoop l init = ip.str := by
  induction l generalizing init with
  | nil => exact absurd rfl hne
  | cons p ps ih =>
    have hp := hall p (List.mem_cons_self p ps)
    by_cases hps : ps = []
    · subst hps
      exact ⟨p, List.mem_cons_self p [], by simp [dialLoop, hp]⟩
    · have hall' : ∀ ip ∈ ps, ip.to4IsNone = false :=
        fun ip hip => hall ip (List.mem_cons_of_mem p hip)
      obtain ⟨ip, hmem, heq⟩ := ih p.str hall' hps
      exact ⟨ip, List.mem_cons_of_mem p hmem, by simp [dialLoop, hp, heq]⟩

lemma fq_suffix_dot (s : GoStr) :
    gostd.goHasSuffix (fullyQualified s) ['.'] = true := by
  unfold fullyQualified
  by_cases h : gostd.goHasSuffix s ['.'] = true
  · rw [if_pos h]
    exact h
  · rw [if_neg h]
    simp only [gostd.goHasSuffix, decide_eq_true_eq]
    exact List.suffix_append s ['.']

lemma fq_of_suffix (t : GoStr) (h : gostd.goHasSuffix t ['.'] = true) :
    fullyQualified t = t := by
  unfold fullyQualified
  rw [if_pos h]

lemma fq_idem (s : GoStr) :
    fullyQualified (fullyQualified s) = fullyQualified s :=
  fq_of_suffix _ (fq_suffix_dot s)

end resolved

/--
C8: when resolution yields at least one IPv6 address (one whose
`To4()` is nil), `DialContext` dials the first such address in the
delivered order, bracketed with the original port appended, even when
IPv4 addresses are present; when every returned address is IPv4, an
IPv4 address from the result (the last one) is dialed.
-/
theorem c8_dial_prefers_ipv6 (env : resolved.ResolveEnv)
    (address host port : GoStr) (addrs : List resolved.GoIP)
    (hsplit : gostd.splitHostPort address = some (host, port))
    (hres : env.resolveHostname host = .ok addrs) :
    (∀ pre ip6 rest, addrs = pre ++ ip6 :: rest →
      (∀ ip ∈ pre, ip.to4IsNone = false) → ip6.to4IsNone = true →
      resolved.dialAddress env address =
        (.ok (['['] ++ ip6.str ++ [']'] ++ [':'] ++ port),
         [.resolveHostname host])) ∧
    ((addrs ≠ [] ∧ ∀ ip ∈ addrs, ip.to4IsNone = false) →
      ∃ ip ∈ addrs, resolved.dialAddress env address =
        (.ok (ip.str ++ [':'] ++ port), [.resolveHostname host])) := by
  have hbase : resolved.dialAddress env address =
      (.ok (resolved.dialLoop addrs address ++ [':'] ++ port),
       [.resolveHostname host]) := by
    unfold resolved.dialAddress
    rw [hsplit]
    dsimp only
    rw [hres]
  constructor
  · intro pre ip6 rest haddrs hpre h6
    rw [hbase, haddrs, resolved.dialLoop_first_v6 pre ip6 rest hpre h6]
  · intro hcase
    obtain ⟨ip, hmem, heq⟩ :=
      resolved.dialLoop_all_v4 addrs address hcase.2 hcase.1
    exact ⟨ip, hmem, by rw [hbase, heq]⟩

def ip4a : resolved.GoIP := ⟨false, "1.2.3.4".toList⟩
def ip6a : resolved.GoIP := ⟨true, "::1".toList⟩

/-- A resolved service answering `h` with an IPv4 then an IPv6
address, and `v` with a single IPv4 address. -/
def env8 : resolved.ResolveEnv where
  resolveHostname := fun h =>
    if h = "h".toList then .ok [ip4a, ip6a]
    else if h = "v".toList then .ok [ip4a]
    else .ok []
  resolveAddress := fun _ _ => .error "unreachable".toList
  resolveRecord := fun _ _ => .error "unreachable".toList

/-- Witness for C8: with answers `[1.2.3.4, ::1]` the dial target is
`[::1]:80`; with the single answer `[1.2.3.4]` an IPv4 target is
dialed. -/
theorem c8_witness :
    resolved.dialAddress env8 "h:80".toList =
      (.ok (['['] ++ ip6a.str ++ [']'] ++ [':'] ++
        "80".toList),
       [.resolveHostname "h".toList]) ∧
    (∃ ip ∈ [ip4a],
      resolved.dialAddress env8 "v:80".toList =
        (.ok (ip.str ++ [':'] ++ "80".toList),
         [.resolveHostname "v".toList])) :=
  ⟨(c8_dial_prefers_ipv6 env8 "h:80".toList "h".toList "80".toList
      [ip4a, ip6a] (by decide) rfl).1
      [ip4a] ip6a [] rfl (by decide) rfl,
   (c8_dial_prefers_ipv6 env8 "v:80".toList "v".toList "80".toList
      [ip4a] (by decide) rfl).2 ⟨by decide, by decide⟩⟩

/--
C9: `fullyQualified` always produces a string ending in a dot, is
idempotent, is the identity on already-qualified names, and every
hostname returned by a successful `LookupAddr` ends with a trailing
dot.
-/
theorem c9_fully_qualified_names (s : GoStr)
    (pip : GoStr → Option resolved.GoIP) (env : resolved.ResolveEnv)
    (addr : GoStr) (names : List GoStr) (calls : List resolved.RemoteCall)
    (h : resolved.lookupAddr pip env addr = (.ok names, calls)) :
    gostd.goHasSuffix (resolved.fullyQualified s) ['.'] = true ∧
    resolved.fullyQualified (resolved.fullyQualified s) =
      resolved.fullyQualified s ∧
    (gostd.goHasSuffix s ['.'] = true → resolved.fullyQualified s = s) ∧
    (∀ nm ∈ names, gostd.goHasSuffix nm ['.'] = true) := by
  refine ⟨resolved.fq_suffix_dot s, resolved.fq_idem s,
    resolved.fq_of_suffix s, ?_⟩
  intro nm hnm
  unfold resolved.lookupAddr at h
  cases hp : pip addr with
  | none => rw [hp] at h; cases h
  | some ip =>
    rw [hp] at h
    dsimp only at h
    cases hr : env.resolveAddress
        (if ip.to4IsNone then resolved.AF_INET6 else resolved.AF_INET) ip with
    | error e => rw [hr] at h; cases h
    | ok hostnames =>
      rw [hr] at h
      have hnames : names = hostnames.map
          (fun n => resolved.fullyQualified n.hostname) := by
        have h1 := congrArg Prod.fst h
        dsimp only at h1
        cases h1
        rfl
      subst hnames
      obtain ⟨y, _, hy⟩ := List.mem_map.mp hnm
      rw [← hy]
      exact resolved.fq_suffix_dot y.hostname

def pip9 : GoStr → Option resolved.GoIP := fun a =>
  if a = "1.2.3.4".toList then some ip4a else none

/-- A resolved service answering the reverse lookup of `1.2.3.4`
with the two hostnames `x` (unqualified) and `y.` (qualified). -/
def env9 : resolved.ResolveEnv where
  resolveHostname := fun _ => .error "unreachable".toList
  resolveAddress := fun fam ip =>
    if fam = resolved.AF_INET ∧ ip = ip4a then
      .ok [⟨0, "x".toList⟩, ⟨0, "y.".toList⟩]
    else .error "unreachable".toList
  resolveRecord := fun _ _ => .error "unreachable".toList

/-- Witness for C9 at a concrete reverse lookup returning one
unqualified and one qualified hostname. -/
theorem c9_witness :
    gostd.goHasSuffix (resolved.fullyQualified "a".toList) ['.'] = true ∧
    resolved.fullyQualified (resolved.fullyQualified "a".toList) =
      resolved.fullyQualified "a".toList ∧
    (gostd.goHasSuffix "a".toList ['.'] = true →
      resolved.fullyQualified "a".toList = "a".toList) ∧
    (∀ nm ∈ ["x.".toList, "y.".toList],
      gostd.goHasSuffix nm ['.'] = true) :=
  c9_fully_qualified_names "a".toList pip9 env9 "1.2.3.4".toList
    ["x.".toList, "y.".toList]
    [.resolveAddress resolved.AF_INET ip4a] rfl

/--
C10 (implicit behaviour): when resolution succeeds with an empty
address list, the `address` variable is never overwritten, so the
dial step is attempted on the original unsplit input with `:` and
the port appended again — `host:port:port` — instead of a not-found
error.
-/
theorem c10_empty_resolution_dials_original (env : resolved.ResolveEnv)
    (address host port : GoStr)
    (hsplit : gostd.splitHostPort address = some (host, port))
    (hres : env.resolveHostname host = .ok []) :
    resolved.dialAddress env address =
      (.ok (address ++ [':'] ++ port), [.resolveHostname host]) := by
  unfold resolved.dialAddress
  rw [hsplit]
  dsimp only
  rw [hres]
  rfl

/-- Witness for C10: the input `h:80` resolving to no addresses is
dialed as `h:80:80`. -/
theorem c10_witness :
    resolved.dialAddress env8 "w:80".toList =
      (.ok ("w:80".toList ++ [':'] ++ "80".toList),
       [.resolveHostname "w".toList]) :=
  c10_empty_resolution_dials_original env8 "w:80".toList "w".toList
    "80".toList (by decide) rfl
